import Mathlib

/-!
Verification development for the Televiu pairing and relay server
(src/src/server/handlers.rs, src/src/server/state.rs, src/src/main.rs).

The embedding mirrors the Rust source:
- `Command`, `Event` mirror the serde types in handlers.rs.
- `ControllerState` and its four transition methods mirror the
  `ControllerState` impl (handlers.rs lines 209-275).
- `runController` mirrors the read loop of `handle_controller`
  (handlers.rs lines 330-481), parametric in the external JSON codec
  (serde_json is an external crate, so parsing is a parameter
  `parse : String → Option Event` and the serialized forced-Unpair
  message is a parameter `ser : String`).
- `runPlayer` / `runPlayerSession` mirror `handle_player`
  (handlers.rs lines 61-199).
- `Registry`, `claimReg`, `preludeController` mirror the shared
  `State.channels` map and the prelude of `handle_controller`
  (handlers.rs lines 282-328).
-/

/-- Mirrors `enum Command { Pair, Unpair, Play, Stop }` (handlers.rs 30-35). -/
inductive Command
  | Pair
  | Unpair
  | Play
  | Stop
deriving DecidableEq, Repr

/-- Mirrors `struct Event { command: Command, payload: Option<String> }`
(handlers.rs 38-41). -/
structure Event where
  command : Command
  payload : Option String
deriving DecidableEq, Repr

/-- Mirrors `enum ControllerState { Unpaired, Paired, Played, Stopped }`
(handlers.rs 210-215); `Default` is `Unpaired` (handlers.rs 217-221). -/
inductive ControllerState
  | Unpaired
  | Paired
  | Played
  | Stopped
deriving DecidableEq, Repr

namespace ControllerState

/-- Mirrors `ControllerState::pair` (handlers.rs 224-235): returns the
next state and whether the transition was accepted. -/
def pair : ControllerState → ControllerState × Bool
  | Unpaired => (Paired, true)
  | _ => (Unpaired, false)

/-- Mirrors `ControllerState::play` (handlers.rs 237-248). -/
def play : ControllerState → ControllerState × Bool
  | Paired => (Played, true)
  | Stopped => (Played, true)
  | _ => (Unpaired, false)

/-- Mirrors `ControllerState::stop` (handlers.rs 250-261). -/
def stop : ControllerState → ControllerState × Bool
  | Played => (Stopped, true)
  | _ => (Unpaired, false)

/-- Mirrors `ControllerState::unpair` (handlers.rs 263-274). -/
def unpair : ControllerState → ControllerState × Bool
  | Paired => (Unpaired, true)
  | Played => (Unpaired, true)
  | Stopped => (Unpaired, true)
  | _ => (Unpaired, false)

end ControllerState

/-- Dispatch of a command to the matching transition method, exactly as the
`match event.command` arms of `handle_controller` call them
(handlers.rs 354-447). -/
def stepOf (s : ControllerState) : Command → ControllerState × Bool
  | Command.Pair => s.pair
  | Command.Play => s.play
  | Command.Stop => s.stop
  | Command.Unpair => s.unpair

/-- Modelled from the spec: next-state column of the transition table in
section 4.3 of the spec, written from the table's words for the refinement
comparison with `stepOf`. -/
def specNext : ControllerState → Command → ControllerState
  | ControllerState.Unpaired, Command.Pair => ControllerState.Paired
  | ControllerState.Paired, Command.Play => ControllerState.Played
  | ControllerState.Stopped, Command.Play => ControllerState.Played
  | ControllerState.Played, Command.Stop => ControllerState.Stopped
  | _, _ => ControllerState.Unpaired

/-- Modelled from the spec: accept column of the transition table in
section 4.3 of the spec. -/
def specAccept : ControllerState → Command → Bool
  | ControllerState.Unpaired, Command.Pair => true
  | ControllerState.Paired, Command.Play => true
  | ControllerState.Stopped, Command.Play => true
  | ControllerState.Played, Command.Stop => true
  | ControllerState.Paired, Command.Unpair => true
  | ControllerState.Played, Command.Unpair => true
  | ControllerState.Stopped, Command.Unpair => true
  | _, _ => false

/-- Runs a command list through the state machine, stopping at the first
rejected command; returns the final state and whether every command was
accepted. -/
def runCommands (s : ControllerState) : List Command → ControllerState × Bool
  | [] => (s, true)
  | c :: cs =>
    let p := stepOf s c
    if p.2 then runCommands p.1 cs else (p.1, false)

/-- An inbound WebSocket frame on the controller socket, as matched by the
`match msg` in `handle_controller` (handlers.rs 337-480): a text frame, a
close frame, or any other frame kind (ignored by the `_ => {}` arm). The
read loop `while let Some(Ok(msg))` ends when the stream ends or yields an
error; both are modelled by the end of the frame list. -/
inductive Frame
  | text (t : String)
  | close
  | other
deriving DecidableEq, Repr

/-- The observable state of the relay channel's consumer around one loop
iteration: `aliveCheck` is the negation of `sender.is_closed()` at the top
of the loop (handlers.rs 331), `aliveSend` is whether the consumer is still
alive when a send on `sender` actually runs inside this iteration. The
consumer can close between the two points but never reopens. -/
structure EnvStep where
  aliveCheck : Bool
  aliveSend : Bool
deriving DecidableEq, Repr

/-- Consumer alive through the whole iteration. -/
def liveEnv : EnvStep := ⟨true, true⟩

/-- Why the controller read loop ended. -/
inductive LoopExit
  | streamEnd
  | consumerClosed
  | rejectBreak
  | unpairBreak
  | closeFrame
  | panicked
deriving DecidableEq, Repr

/-- Result of the controller read loop: final `ControllerState`, the
messages successfully enqueued into the relay channel in FIFO order, the
exit cause, and whether a close frame was sent back over the controller
socket. -/
structure LoopResult where
  finalState : ControllerState
  sent : List String
  exit : LoopExit
  closeFrameSent : Bool
deriving DecidableEq, Repr

/-- The read loop of `handle_controller` (handlers.rs 330-481), parametric
in the external serde codec: `parse` is `serde_json::from_str`, `ser` is
`serde_json::to_string` of the synthesized `Event { command: Unpair,
payload: None }`. Each frame carries the consumer-aliveness environment of
its iteration. Accepted transitions forward the original inbound text `t`
with `sender.send(text).await.unwrap()`, which panics when the consumer is
gone (`panicked` exit, nothing enqueued); rejected transitions send the
synthesized Unpair under `if let Err` (no panic) and break. The Unpair arm
(handlers.rs 424-446) sends the synthesized Unpair on rejection and then
unconditionally forwards the original text and breaks. The Close arm
(handlers.rs 449-478) attempts an unpair, sends the synthesized Unpair only
when that attempt fails, replies with a close frame, and breaks. After the
loop the function only logs (handlers.rs 483-491): no close frame is sent
there. -/
def runController (parse : String → Option Event) (ser : String) :
    List (Frame × EnvStep) → ControllerState → List String → LoopResult
  | [], s, out => ⟨s, out, LoopExit.streamEnd, false⟩
  | (f, env) :: rest, s, out =>
    if env.aliveCheck = false then ⟨s, out, LoopExit.consumerClosed, false⟩
    else
      match f with
      | Frame.other => runController parse ser rest s out
      | Frame.close =>
        let p := s.unpair
        if p.2 then ⟨p.1, out, LoopExit.closeFrame, true⟩
        else
          ⟨p.1, if env.aliveSend then out ++ [ser] else out,
            LoopExit.closeFrame, true⟩
      | Frame.text t =>
        match parse t with
        | none => runController parse ser rest s out
        | some ev =>
          match ev.command with
          | Command.Pair =>
            let p := s.pair
            if p.2 then
              if env.aliveSend then runController parse ser rest p.1 (out ++ [t])
              else ⟨p.1, out, LoopExit.panicked, false⟩
            else
              ⟨p.1, if env.aliveSend then out ++ [ser] else out,
                LoopExit.rejectBreak, false⟩
          | Command.Play =>
            let p := s.play
            if p.2 then
              if env.aliveSend then runController parse ser rest p.1 (out ++ [t])
              else ⟨p.1, out, LoopExit.panicked, false⟩
            else
              ⟨p.1, if env.aliveSend then out ++ [ser] else out,
                LoopExit.rejectBreak, false⟩
          | Command.Stop =>
            let p := s.stop
            if p.2 then
              if env.aliveSend then runController parse ser rest p.1 (out ++ [t])
              else ⟨p.1, out, LoopExit.panicked, false⟩
            else
              ⟨p.1, if env.aliveSend then out ++ [ser] else out,
                LoopExit.rejectBreak, false⟩
          | Command.Unpair =>
            let p := s.unpair
            if p.2 then
              if env.aliveSend then ⟨p.1, out ++ [t], LoopExit.unpairBreak, false⟩
              else ⟨p.1, out, LoopExit.panicked, false⟩
            else
              if env.aliveSend then
                ⟨p.1, out ++ [ser] ++ [t], LoopExit.unpairBreak, false⟩
              else ⟨p.1, out, LoopExit.panicked, false⟩

/-- A concrete codec instance used only to evaluate the model on concrete
inputs: a one-letter wire format standing in for the JSON texts. -/
def testParse : String → Option Event
  | "P" => some ⟨Command.Pair, none⟩
  | "L" => some ⟨Command.Play, none⟩
  | "S" => some ⟨Command.Stop, none⟩
  | "U" => some ⟨Command.Unpair, none⟩
  | "u" => some ⟨Command.Unpair, none⟩
  | _ => none

/-- The relay-channel side of the `select!` loop in `handle_player`
(handlers.rs 110-171), assuming the socket sends succeed: each received
channel message is parsed (`serde_json::from_str`); a parse failure is
logged and skipped (`continue`); `Pair`, `Play` and `Stop` forward the
received message unchanged to the player socket and keep looping; `Unpair`
forwards the message unchanged and then breaks out of the loop. Returns
the list of messages written to the player socket, in order. -/
def runPlayer (parse : String → Option Event) : List String → List String
  | [] => []
  | m :: rest =>
    match parse m with
    | none => runPlayer parse rest
    | some ev =>
      match ev.command with
      | Command.Unpair => [m]
      | _ => m :: runPlayer parse rest

/-- The shared `State.channels` map (state.rs 12-14): a device id maps to
its channel, whose `sender: Option<mpsc::Sender>` slot is `some h` while
the producer handle is unclaimed and `none` once taken. `none` at the map
level means the device is not registered. The producer handle itself is
abstract (`α`). -/
abbrev Registry (α : Type) : Type := String → Option (Option α)

/-- The empty channels map. -/
def emptyReg {α : Type} : Registry α := fun _ => none

/-- `channels.insert(device, RwLock::new(Channel { sender: Some(sx) }))`
under the map write lock (handlers.rs 71-73). -/
def registerReg {α : Type} (r : Registry α) (d : String) (h : α) :
    Registry α :=
  fun x => if x = d then some (some h) else r x

/-- `channels.remove(&device)` under the map write lock
(handlers.rs 193-194). -/
def unregisterReg {α : Type} (r : Registry α) (d : String) : Registry α :=
  fun x => if x = d then none else r x

/-- The claim of the producer handle: `channels.get(&device)` under the
map read lock followed by `lock.sender.take()` under the channel write
lock (handlers.rs 300-326). Returns the taken handle (or `none`) and the
resulting map; a take on an empty slot or a missing device changes
nothing. -/
def claimReg {α : Type} (r : Registry α) (d : String) :
    Option α × Registry α :=
  match r d with
  | some (some h) => (some h, fun x => if x = d then some none else r x)
  | some none => (none, r)
  | none => (none, r)

/-- The operations the source ever performs on the shared channels map:
player registration, player unregistration, and a controller's claim. -/
inductive RegOp (α : Type)
  | register (d : String) (h : α)
  | unregister (d : String)
  | claim (d : String)
deriving DecidableEq

/-- Applies one registry operation. -/
def applyOp {α : Type} (r : Registry α) : RegOp α → Registry α
  | RegOp.register d h => registerReg r d h
  | RegOp.unregister d => unregisterReg r d
  | RegOp.claim d => (claimReg r d).2

/-- Applies a sequence of registry operations in order. -/
def applyOps {α : Type} (r : Registry α) (ops : List (RegOp α)) :
    Registry α :=
  ops.foldl applyOp r

/-- Where the prelude of `handle_controller` (handlers.rs 282-328) ends:
missing `device` parameter, missing `secret` parameter, no channel for the
device, producer handle already taken, or the handle successfully
claimed. Every case but `claimed` makes the handler return immediately. -/
inductive PreludeExit (α : Type)
  | noDevice
  | noSecret
  | noChannel
  | alreadyClaimed
  | claimed (h : α)
deriving DecidableEq

/-- The prelude of `handle_controller` (handlers.rs 282-328), in source
order: `params.get("device")` (missing ⇒ return), `params.get("secret")`
(missing ⇒ return; the value is bound to `_secret` and never used), map
read-lock lookup (missing ⇒ return), channel write-lock
`lock.sender.take()` (empty ⇒ return). Returns the exit and the resulting
channels map. -/
def preludeController {α : Type} (params : String → Option String)
    (reg : Registry α) : PreludeExit α × Registry α :=
  match params "device" with
  | none => (PreludeExit.noDevice, reg)
  | some d =>
    match params "secret" with
    | none => (PreludeExit.noSecret, reg)
    | some _ =>
      match reg d with
      | none => (PreludeExit.noChannel, reg)
      | some none => (PreludeExit.alreadyClaimed, reg)
      | some (some h) =>
        (PreludeExit.claimed h, fun x => if x = d then some none else reg x)

/-- The whole of `handle_player` (handlers.rs 61-199): draw a fresh device
id `d` (the source uses `uuid::Uuid::new_v4()`), insert the channel with
its sender into the map, send the registration handshake over the socket
(`handshakeOk` records whether that send succeeded). On handshake failure
the handler returns at once (handlers.rs 81-85): the map entry is NOT
removed; the local receiver is dropped, which closes the channel, so the
third component (consumer closed) is true on every path. Otherwise the
select loop runs (`runPlayer` gives the socket output), and on exit the
handler sends a close frame, calls `rx.close()`, and removes the device
from the map (handlers.rs 177-196). Returns the final map, the socket
output, and whether the consumer side ended closed. -/
def runPlayerSession {α : Type} (parse : String → Option Event)
    (reg : Registry α) (d : String) (h : α) (handshakeOk : Bool)
    (msgs : List String) : Registry α × List String × Bool :=
  let reg1 := registerReg reg d h
  if handshakeOk then (unregisterReg reg1 d, runPlayer parse msgs, true)
  else (reg1, [], true)

/-- A command-text sequence is fully accepted from state `s`: every text
parses, every transition is accepted, and (since an accepted `Unpair`
breaks the controller loop) `Unpair` occurs only as the last element. -/
def acceptsAll (parse : String → Option Event) :
    ControllerState → List String → Bool
  | _, [] => true
  | s, t :: rest =>
    match parse t with
    | none => false
    | some ev =>
      (stepOf s ev.command).2 &&
        (match ev.command with
         | Command.Unpair => rest.isEmpty
         | _ => acceptsAll parse (stepOf s ev.command).1 rest)

/-- The message parses to a non-Unpair event. -/
def nonUnpairMsg (parse : String → Option Event) (m : String) : Bool :=
  match parse m with
  | some ev => decide (ev.command ≠ Command.Unpair)
  | none => false

/-- The message parses to an Unpair event. -/
def unpairMsg (parse : String → Option Event) (m : String) : Bool :=
  match parse m with
  | some ev => decide (ev.command = Command.Unpair)
  | none => false

/-- C1: the controller state machine implements exactly the transition
table of spec section 4.3 — a transition is accepted iff the table accepts
it, the next state is the table's next state (on rejection always
`Unpaired`), and the sequence Pair, Play, Stop, Play from the initial state
`Unpaired` is accepted at every step and ends in `Played`. -/
theorem controller_state_matches_spec_table :
    (∀ s c, stepOf s c = (specNext s c, specAccept s c)) ∧
      runCommands ControllerState.Unpaired
        [Command.Pair, Command.Play, Command.Stop, Command.Play]
        = (ControllerState.Played, true) := by
  constructor
  · intro s c
    cases s <;> cases c <;> rfl
  · rfl

/-- The producer slot of device `d` is empty: either the device is absent
from the map or its sender handle has been taken. -/
def slotEmpty {α : Type} (r : Registry α) (d : String) : Prop :=
  r d = none ∨ r d = some none

theorem claimReg_of_slotEmpty {α : Type} (r : Registry α) (d : String)
    (h : slotEmpty r d) : (claimReg r d).1 = none := by
  rcases h with h | h <;> simp [claimReg, h]

theorem slotEmpty_after_claim {α : Type} (r : Registry α) (d : String)
    (h : α) (hcl : (claimReg r d).1 = some h) :
    slotEmpty (claimReg r d).2 d := by
  rcases hr : r d with _ | (_ | h2) <;>
    simp [claimReg, hr, slotEmpty] at hcl ⊢

theorem slotEmpty_applyOp {α : Type} (r : Registry α) (d : String)
    (op : RegOp α) (hse : slotEmpty r d)
    (hop : ∀ h2 : α, op ≠ RegOp.register d h2) :
    slotEmpty (applyOp r op) d := by
  cases op with
  | register d2 h2 =>
    rcases eq_or_ne d d2 with rfl | hne
    · exact absurd rfl (hop h2)
    · rcases hse with h | h
      · left; simpa [applyOp, registerReg, hne] using h
      · right; simpa [applyOp, registerReg, hne] using h
  | unregister d2 =>
    rcases eq_or_ne d d2 with rfl | hne
    · left; simp [applyOp, unregisterReg]
    · rcases hse with h | h
      · left; simpa [applyOp, unregisterReg, hne] using h
      · right; simpa [applyOp, unregisterReg, hne] using h
  | claim d2 =>
    rcases hr : r d2 with _ | (_ | h2)
    · rcases hse with h | h
      · left; simpa [applyOp, claimReg, hr] using h
      · right; simpa [applyOp, claimReg, hr] using h
    · rcases hse with h | h
      · left; simpa [applyOp, claimReg, hr] using h
      · right; simpa [applyOp, claimReg, hr] using h
    · rcases eq_or_ne d d2 with rfl | hne
      · right; simp [applyOp, claimReg, hr]
      · rcases hse with h | h
        · left; simpa [applyOp, claimReg, hr, hne] using h
        · right; simpa [applyOp, claimReg, hr, hne] using h

theorem slotEmpty_applyOps {α : Type} (ops : List (RegOp α)) :
    ∀ (r : Registry α) (d : String), slotEmpty r d →
      (∀ h2 : α, RegOp.register d h2 ∉ ops) →
      slotEmpty (applyOps r ops) d := by
  induction ops with
  | nil => intro r d h _; exact h
  | cons op rest ih =>
    intro r d h hops
    have hop : ∀ h2 : α, op ≠ RegOp.register d h2 := by
      intro h2 heq
      exact hops h2 (by rw [heq]; exact List.mem_cons_self _ _)
    have hrest : ∀ h2 : α, RegOp.register d h2 ∉ rest := by
      intro h2 hin
      exact hops h2 (List.mem_cons_of_mem _ hin)
    exact ih (applyOp r op) d (slotEmpty_applyOp r d op h hop) hrest

/-- C2: for every device channel, at most one claim ever takes the
producer handle. Once a claim succeeds, after any further sequence of
registry operations that does not register a fresh device under the same
id, a claim attempt on that id returns nothing, and a whole controller
session against that registry never reaches the claimed state — the handle
is never put back except by removing the entry and registering anew. -/
theorem claim_producer_at_most_once {α : Type} (r : Registry α) (d : String)
    (h : α) (ops : List (RegOp α))
    (hcl : (claimReg r d).1 = some h)
    (hops : ∀ h2 : α, RegOp.register d h2 ∉ ops) :
    (claimReg (applyOps (claimReg r d).2 ops) d).1 = none ∧
      ∀ (params : String → Option String) (h2 : α),
        params "device" = some d →
          (preludeController params (applyOps (claimReg r d).2 ops)).1
            ≠ PreludeExit.claimed h2 := by
  have hse := slotEmpty_applyOps ops (claimReg r d).2 d
      (slotEmpty_after_claim r d h hcl) hops
  refine ⟨claimReg_of_slotEmpty _ _ hse, ?_⟩
  intro params h2 hdev
  cases hsec : params "secret" with
  | none => simp [preludeController, hdev, hsec]
  | some s0 =>
    rcases hse with h3 | h3 <;> simp [preludeController, hdev, hsec, h3]

theorem claim_producer_at_most_once_witness :
    (claimReg (registerReg (emptyReg : Registry Unit) "d" ()) "d").1
        = some () ∧
      (claimReg (applyOps
          (claimReg (registerReg (emptyReg : Registry Unit) "d" ()) "d").2
          [RegOp.claim "d"]) "d").1 = none :=
  ⟨by decide,
    (claim_producer_at_most_once (registerReg (emptyReg : Registry Unit) "d" ())
        "d" () [RegOp.claim "d"] (by decide)
        (by intro h2; cases h2; decide)).1⟩

/-- C10: a controller connection whose query parameters lack the `secret`
key terminates in the prelude, at the device or secret check, before any
lookup or claim, and leaves the channels map untouched. -/
theorem missing_secret_terminates_before_lookup {α : Type}
    (params : String → Option String) (reg : Registry α)
    (hsec : params "secret" = none) :
    ((preludeController params reg).1 = PreludeExit.noDevice ∨
        (preludeController params reg).1 = PreludeExit.noSecret) ∧
      (preludeController params reg).2 = reg := by
  cases hdev : params "device" with
  | none => simp [preludeController, hdev]
  | some d => simp [preludeController, hdev, hsec]

/-- Query parameters carrying only a device id, for concrete evaluation. -/
def paramsDeviceOnly : String → Option String :=
  fun k => if k = "device" then some "dev" else none

theorem missing_secret_terminates_before_lookup_witness :
    paramsDeviceOnly "secret" = none ∧
      (((preludeController paramsDeviceOnly (emptyReg : Registry Unit)).1
            = PreludeExit.noDevice ∨
          (preludeController paramsDeviceOnly (emptyReg : Registry Unit)).1
            = PreludeExit.noSecret) ∧
        (preludeController paramsDeviceOnly (emptyReg : Registry Unit)).2
          = (emptyReg : Registry Unit)) :=
  ⟨by decide,
    missing_secret_terminates_before_lookup paramsDeviceOnly
      (emptyReg : Registry Unit) (by decide)⟩

theorem runController_acceptsAll (parse : String → Option Event)
    (ser : String) :
    ∀ (ts : List String) (s : ControllerState) (out : List String),
      acceptsAll parse s ts = true →
        (runController parse ser (ts.map (fun t => (Frame.text t, liveEnv)))
            s out).sent = out ++ ts := by
  intro ts
  induction ts with
  | nil => intro s out _; simp [runController]
  | cons t rest ih =>
    intro s out hacc
    cases hpt : parse t with
    | none => simp [acceptsAll, hpt] at hacc
    | some ev =>
      obtain ⟨c, pl⟩ := ev
      simp only [acceptsAll, hpt, Bool.and_eq_true] at hacc
      cases c with
      | Pair =>
        have h1 : (s.pair).2 = true := hacc.1
        have h2 := hacc.2
        simp only [List.map_cons, runController, liveEnv, hpt, h1, if_true]
        simpa [List.append_assoc] using ih (s.pair).1 (out ++ [t]) h2
      | Play =>
        have h1 : (s.play).2 = true := hacc.1
        have h2 := hacc.2
        simp only [List.map_cons, runController, liveEnv, hpt, h1, if_true]
        simpa [List.append_assoc] using ih (s.play).1 (out ++ [t]) h2
      | Stop =>
        have h1 : (s.stop).2 = true := hacc.1
        have h2 := hacc.2
        simp only [List.map_cons, runController, liveEnv, hpt, h1, if_true]
        simpa [List.append_assoc] using ih (s.stop).1 (out ++ [t]) h2
      | Unpair =>
        have h1 : (s.unpair).2 = true := hacc.1
        have h2 : rest = [] := by
          cases rest with
          | nil => rfl
          | cons x xs => simp at hacc
        subst h2
        simp [runController, liveEnv, hpt, h1]

theorem runPlayer_acceptsAll (parse : String → Option Event) :
    ∀ (ts : List String) (s : ControllerState),
      acceptsAll parse s ts = true → runPlayer parse ts = ts := by
  intro ts
  induction ts with
  | nil => intro s _; rfl
  | cons t rest ih =>
    intro s hacc
    cases hpt : parse t with
    | none => simp [acceptsAll, hpt] at hacc
    | some ev =>
      obtain ⟨c, pl⟩ := ev
      simp only [acceptsAll, hpt, Bool.and_eq_true] at hacc
      cases c with
      | Pair => simp [runPlayer, hpt, ih _ hacc.2]
      | Play => simp [runPlayer, hpt, ih _ hacc.2]
      | Stop => simp [runPlayer, hpt, ih _ hacc.2]
      | Unpair =>
        have h2 : rest = [] := by
          cases rest with
          | nil => rfl
          | cons x xs => simp at hacc
        subst h2
        simp [runPlayer, hpt]

/-- C3: for every command-text sequence fully accepted by the transition
table, the relay channel receives exactly the original inbound texts in
FIFO order (the controller forwards the wire text, not a re-serialization),
and the player forwards each received channel message unchanged to its
socket, so the player socket output is byte-for-byte the submitted
sequence. -/
theorem accepted_events_forwarded_verbatim (parse : String → Option Event)
    (ser : String) (s : ControllerState) (ts : List String)
    (hacc : acceptsAll parse s ts = true) :
    (runController parse ser (ts.map (fun t => (Frame.text t, liveEnv)))
        s []).sent = ts ∧ runPlayer parse ts = ts := by
  refine ⟨?_, runPlayer_acceptsAll parse ts s hacc⟩
  simpa using runController_acceptsAll parse ser ts s [] hacc

theorem accepted_events_forwarded_verbatim_witness :
    acceptsAll testParse ControllerState.Unpaired ["P", "L", "S", "U"]
        = true ∧
      (runController testParse "u"
          ((["P", "L", "S", "U"]).map (fun t => (Frame.text t, liveEnv)))
          ControllerState.Unpaired []).sent = ["P", "L", "S", "U"] ∧
      runPlayer testParse ["P", "L", "S", "U"] = ["P", "L", "S", "U"] :=
  ⟨by decide,
    (accepted_events_forwarded_verbatim testParse "u"
        ControllerState.Unpaired ["P", "L", "S", "U"] (by decide)).1,
    (accepted_events_forwarded_verbatim testParse "u"
        ControllerState.Unpaired ["P", "L", "S", "U"] (by decide)).2⟩

/-- C4 counterexample: a rejected `Unpair` (state `Unpaired`, command
`Unpair`) forwards TWO events into the relay channel — the synthesized
Unpair and then the original inbound text (handlers.rs 424-446 sends the
synthesized message inside the rejection branch and then unconditionally
forwards the original text) — so the player side does not receive exactly
one forwarded event for the rejected command. -/
theorem rejected_unpair_forwards_two_events :
    (stepOf ControllerState.Unpaired Command.Unpair).2 = false ∧
      testParse "U" = some ⟨Command.Unpair, none⟩ ∧
      (runController testParse "u" [(Frame.text "U", liveEnv)]
          ControllerState.Unpaired []).sent = ["u", "U"] ∧
      (runController testParse "u" [(Frame.text "U", liveEnv)]
          ControllerState.Unpaired []).sent.length ≠ 1 := by decide

/-- C4 amended: every rejected command makes the controller forward the
synthesized Unpair into the relay channel and terminate without consuming
any further frame; for a rejected `Pair`, `Play` or `Stop` nothing else is
forwarded, while a rejected `Unpair` additionally forwards the original
inbound text after the synthesized Unpair. -/
theorem rejected_command_forwards_synth_unpair (parse : String → Option Event)
    (ser t : String) (ev : Event) (s : ControllerState)
    (rest : List (Frame × EnvStep))
    (hp : parse t = some ev) (hrej : (stepOf s ev.command).2 = false) :
    runController parse ser ((Frame.text t, liveEnv) :: rest) s []
      = ⟨ControllerState.Unpaired,
          if ev.command = Command.Unpair then [ser, t] else [ser],
          if ev.command = Command.Unpair then LoopExit.unpairBreak
            else LoopExit.rejectBreak,
          false⟩ := by
  obtain ⟨c, pl⟩ := ev
  cases c <;> cases s <;>
    simp_all [runController, stepOf, ControllerState.pair,
      ControllerState.play, ControllerState.stop, ControllerState.unpair,
      liveEnv]

theorem rejected_command_forwards_synth_unpair_witness :
    testParse "U" = some ⟨Command.Unpair, none⟩ ∧
      (stepOf ControllerState.Unpaired Command.Unpair).2 = false ∧
      runController testParse "u"
          [(Frame.text "U", liveEnv), (Frame.text "P", liveEnv)]
          ControllerState.Unpaired []
        = ⟨ControllerState.Unpaired, ["u", "U"], LoopExit.unpairBreak,
            false⟩ :=
  ⟨by decide, by decide, by
    have h := rejected_command_forwards_synth_unpair testParse "u" "U"
      ⟨Command.Unpair, none⟩ ControllerState.Unpaired
      [(Frame.text "P", liveEnv)] (by decide) (by decide)
    simpa using h⟩

/-- C6 counterexample: after an accepted `Pair` the state is `Paired`,
where an `Unpair` transition is legal, yet the close frame forwards no
event at all into the relay channel: the sent list is just the paired
text, and no message in it parses as an Unpair event. The code
(handlers.rs 449-466) sends the synthesized Unpair only when the unpair
attempt FAILS. -/
theorem close_frame_legal_unpair_forwards_nothing :
    (stepOf ControllerState.Paired Command.Unpair).2 = true ∧
      runController testParse "u"
          [(Frame.text "P", liveEnv), (Frame.close, liveEnv)]
          ControllerState.Unpaired []
        = ⟨ControllerState.Unpaired, ["P"], LoopExit.closeFrame, true⟩ ∧
      ∀ m ∈ (runController testParse "u"
          [(Frame.text "P", liveEnv), (Frame.close, liveEnv)]
          ControllerState.Unpaired []).sent,
        unpairMsg testParse m = false := by decide

/-- C6 amended: a socket close frame from the controller forces an
`Unpair` transition attempt, and a synthesized Unpair event is forwarded
into the relay channel if and only if that transition is illegal (current
state `Unpaired`); when the transition is legal nothing is forwarded. In
both cases a close frame is sent back and the session ends in state
`Unpaired`. -/
theorem close_frame_forwards_iff_illegal (parse : String → Option Event)
    (ser : String) (s : ControllerState) (rest : List (Frame × EnvStep)) :
    runController parse ser ((Frame.close, liveEnv) :: rest) s []
      = ⟨ControllerState.Unpaired,
          if (s.unpair).2 then [] else [ser],
          LoopExit.closeFrame, true⟩ := by
  cases s <;> simp [runController, ControllerState.unpair, liveEnv]

/-- C7 counterexample: a controller loop that ends because of an accepted
`Unpair` text frame (not a close frame) sends no close frame back over the
socket: `handle_controller` only replies with a close frame inside the
close-frame arm (handlers.rs 468-475), and after the loop it only logs
(handlers.rs 483-491). -/
theorem controller_exit_without_close_frame :
    (runController testParse "u"
        [(Frame.text "P", liveEnv), (Frame.text "U", liveEnv)]
        ControllerState.Unpaired []).exit = LoopExit.unpairBreak ∧
      (runController testParse "u"
        [(Frame.text "P", liveEnv), (Frame.text "U", liveEnv)]
        ControllerState.Unpaired []).closeFrameSent = false := by decide

/-- C7 amended: the controller session sends a close frame over its socket
if and only if the read loop ended because a close frame was received from
the controller (the reply inside the close arm); on every other exit path
no close frame is sent. -/
theorem close_frame_reply_iff_close_received (parse : String → Option Event)
    (ser : String) :
    ∀ (frames : List (Frame × EnvStep)) (s : ControllerState)
      (out : List String),
      ((runController parse ser frames s out).closeFrameSent = true
        ↔ (runController parse ser frames s out).exit
            = LoopExit.closeFrame) := by
  intro frames
  induction frames with
  | nil => intro s out; simp [runController]
  | cons fe rest ih =>
    intro s out
    obtain ⟨f, env⟩ := fe
    by_cases hc : env.aliveCheck = false
    · simp [runController, hc]
    · cases f with
      | other => simpa [runController, hc] using ih s out
      | close => cases s <;> simp [runController, hc, ControllerState.unpair]
      | text t =>
        cases hpt : parse t with
        | none => simpa [runController, hc, hpt] using ih s out
        | some ev =>
          obtain ⟨c, pl⟩ := ev
          by_cases hs : env.aliveSend
          · cases c <;> cases s <;>
              simp_all [runController, ControllerState.pair,
                ControllerState.play, ControllerState.stop,
                ControllerState.unpair]
          · cases c <;> cases s <;>
              simp_all [runController, ControllerState.pair,
                ControllerState.play, ControllerState.stop,
                ControllerState.unpair]

/-- C8: around an accepted command, (a) if the consumer is already gone at
the top-of-loop `sender.is_closed()` check, the session breaks in a
controlled way — nothing is sent, no panic; (b) when the check passes, the
`unwrap` on the accepted-transition send does not fire exactly when the
consumer is still alive at send time: if the consumer closed between check
and send the unwrap panics (nothing enqueued), otherwise the original text
is enqueued and the loop continues (or, for an accepted Unpair, breaks
after the forward). -/
theorem accepted_send_panics_iff_consumer_closed
    (parse : String → Option Event) (ser t : String) (ev : Event)
    (s : ControllerState) (out : List String)
    (rest : List (Frame × EnvStep))
    (hp : parse t = some ev) (hacc : (stepOf s ev.command).2 = true) :
    (∀ b, runController parse ser ((Frame.text t, ⟨false, b⟩) :: rest) s out
        = ⟨s, out, LoopExit.consumerClosed, false⟩) ∧
      (runController parse ser ((Frame.text t, ⟨true, false⟩) :: rest) s out).exit
        = LoopExit.panicked ∧
      (runController parse ser ((Frame.text t, ⟨true, false⟩) :: rest) s out).sent
        = out ∧
      (ev.command ≠ Command.Unpair →
        runController parse ser ((Frame.text t, ⟨true, true⟩) :: rest) s out
          = runController parse ser rest (stepOf s ev.command).1
              (out ++ [t])) ∧
      (ev.command = Command.Unpair →
        runController parse ser ((Frame.text t, ⟨true, true⟩) :: rest) s out
          = ⟨(stepOf s ev.command).1, out ++ [t], LoopExit.unpairBreak,
              false⟩) := by
  obtain ⟨c, pl⟩ := ev
  refine ⟨fun b => rfl, ?_, ?_, ?_, ?_⟩ <;>
    cases c <;> cases s <;>
      simp_all [runController, stepOf, ControllerState.pair,
        ControllerState.play, ControllerState.stop, ControllerState.unpair]

theorem accepted_send_panics_iff_consumer_closed_witness :
    testParse "P" = some ⟨Command.Pair, none⟩ ∧
      (stepOf ControllerState.Unpaired Command.Pair).2 = true ∧
      (runController testParse "u" [(Frame.text "P", ⟨true, false⟩)]
          ControllerState.Unpaired []).exit = LoopExit.panicked ∧
      runController testParse "u" [(Frame.text "P", ⟨false, true⟩)]
          ControllerState.Unpaired []
        = ⟨ControllerState.Unpaired, [], LoopExit.consumerClosed, false⟩ :=
  ⟨by decide, by decide,
    (accepted_send_panics_iff_consumer_closed testParse "u" "P"
        ⟨Command.Pair, none⟩ ControllerState.Unpaired [] []
        (by decide) (by decide)).2.1,
    (accepted_send_panics_iff_consumer_closed testParse "u" "P"
        ⟨Command.Pair, none⟩ ControllerState.Unpaired [] []
        (by decide) (by decide)).1 true⟩

/-- C5: `handle_player` removes the device from the channels map on its
normal teardown path, but the early return on a failed registration
handshake (handlers.rs 81-85) skips that removal: the device stays in the
map, so a later lookup of the identifier still resolves. The second
conjunct shows the normal path for contrast, and the third shows the
consumer side ends closed on both paths, so a controller already holding
the producer observes a closed channel on its next send. -/
theorem handshake_failure_leaves_device_registered :
    (runPlayerSession testParse (emptyReg : Registry Unit) "d" () false
        []).1 "d" = some (some ()) ∧
      (runPlayerSession testParse (emptyReg : Registry Unit) "d" () true
        []).1 "d" = none ∧
      (runPlayerSession testParse (emptyReg : Registry Unit) "d" () false
        []).2.2 = true := by decide

theorem runPlayer_unpair (parse : String → Option Event) (u : String)
    (post : List String) (hu : unpairMsg parse u = true) :
    ∀ pre : List String, pre.all (nonUnpairMsg parse) = true →
      runPlayer parse (pre ++ u :: post) = pre ++ [u] := by
  intro pre
  induction pre with
  | nil =>
    intro _
    cases hpu : parse u with
    | none => simp [unpairMsg, hpu] at hu
    | some ev =>
      have hcu : ev.command = Command.Unpair := by
        simpa [unpairMsg, hpu] using hu
      simp [runPlayer, hpu, hcu]
  | cons m pre2 ih =>
    intro hall
    simp only [List.all_cons, Bool.and_eq_true] at hall
    obtain ⟨hm, hrest⟩ := hall
    cases hpm : parse m with
    | none => simp [nonUnpairMsg, hpm] at hm
    | some ev =>
      have hne : ev.command ≠ Command.Unpair := by
        simpa [nonUnpairMsg, hpm] using hm
      cases hcm : ev.command with
      | Unpair => exact absurd hcm hne
      | Pair => simp [runPlayer, hpm, hcm, ih hrest]
      | Play => simp [runPlayer, hpm, hcm, ih hrest]
      | Stop => simp [runPlayer, hpm, hcm, ih hrest]

/-- C9: when the relay channel delivers a message parsing to `Unpair`, the
player forwards it to its socket and then leaves the loop — messages after
it are never forwarded — and the teardown runs: the device is removed from
the channels map (a later lookup returns nothing) and the consumer side is
closed, even though the player socket never signalled termination. -/
theorem player_unpair_event_terminates_session {α : Type}
    (parse : String → Option Event) (reg : Registry α) (d : String) (h : α)
    (pre post : List String) (u : String)
    (hpre : pre.all (nonUnpairMsg parse) = true)
    (hu : unpairMsg parse u = true) :
    (runPlayerSession parse reg d h true (pre ++ u :: post)).2.1
        = pre ++ [u] ∧
      (runPlayerSession parse reg d h true (pre ++ u :: post)).1 d = none ∧
      (runPlayerSession parse reg d h true (pre ++ u :: post)).2.2
        = true := by
  refine ⟨?_, ?_, rfl⟩
  · simpa [runPlayerSession] using runPlayer_unpair parse u post hu pre hpre
  · simp [runPlayerSession, unregisterReg]

theorem player_unpair_event_terminates_session_witness :
    (["P", "L"].all (nonUnpairMsg testParse) = true) ∧
      unpairMsg testParse "u" = true ∧
      (runPlayerSession testParse (emptyReg : Registry Unit) "d" () true
          (["P", "L"] ++ "u" :: ["S"])).2.1 = ["P", "L", "u"] ∧
      (runPlayerSession testParse (emptyReg : Registry Unit) "d" () true
          (["P", "L"] ++ "u" :: ["S"])).1 "d" = none :=
  ⟨by decide, by decide,
    by
      simpa using (player_unpair_event_terminates_session testParse
          (emptyReg : Registry Unit) "d" () ["P", "L"] ["S"] "u"
          (by decide) (by decide)).1,
    (player_unpair_event_terminates_session testParse
        (emptyReg : Registry Unit) "d" () ["P", "L"] ["S"] "u"
        (by decide) (by decide)).2.1⟩
